import Mathlib

/-!
# Four.Meme Migration Sniper — verification of the Threshold Detection &
Position Lifecycle Engine

A shallow embedding of the TypeScript sources
`core/src/index.ts` (class `MigrationDetector`) and
`core/src/transition-logic/TransitionLogic.ts` (class `TransitionLogic`),
together with theorems settling the specification claims about them.

Conventions of the embedding:
* JavaScript `number` values (market caps, percentages, prices) are modelled
  as `ℚ`; `bigint` values (wei amounts) as `ℤ`.
* Optional TypeScript fields (`currentPrice?`, `profitLossPercent?`, …) are
  `Option` fields.  Comparisons against a possibly-`undefined` number follow
  JavaScript semantics: any ordering comparison with `undefined` is `false`.
* External effects (on-chain reads, swap execution) are passed in as explicit
  oracle parameters: a market-cap reading per tick, a success flag for the
  confirmation/emission step, a swap outcome for buys and sells.
* The per-tick loops (`checkAllTokens`, `monitorPositions`) are modelled as
  sequential folds over the monitored collections, which matches the awaited
  `for … of` loops of the source.
-/

namespace FourMemeSniper

/-! ## Assoc-list helpers (the source stores its collections in `Map`s,
keyed by token address / position id, preserving insertion order) -/

/-- Look up the value bound to key `k` in an insertion-ordered association
list (the first binding wins, as in a JS `Map` with unique keys). -/
def lookupKey {β : Type} : List (String × β) → String → Option β
  | [], _ => none
  | t :: ts, k => if t.1 = k then some t.2 else lookupKey ts k

/-- Replace the value bound to key `k` (models in-place mutation of the
object stored in a JS `Map`). -/
def setKey {β : Type} : List (String × β) → String → β → List (String × β)
  | [], _, _ => []
  | t :: ts, k, v => if t.1 = k then (t.1, v) :: ts else t :: setKey ts k v

/-- Delete the binding for key `k` (models `Map.delete`). -/
def removeKey {β : Type} : List (String × β) → String → List (String × β)
  | [], _ => []
  | t :: ts, k => if t.1 = k then ts else t :: removeKey ts k

/-! ## MigrationDetector: configuration and the prediction engine
(`core/src/index.ts`, class `MigrationDetector`) -/

/-- `MigrationDetectorConfig` (fields relevant to the verified logic). -/
structure MigrationDetectorConfig where
  migrationThreshold : ℚ
  preMigrationBuffer : ℚ
  confirmationBlocks : ℕ
  maxTokensToMonitor : ℕ
deriving DecidableEq, Repr

/-- The configuration defaults of `loadMigrationConfig`:
threshold 18 BNB, buffer 0.5 BNB, 3 confirmation blocks, 50 tokens. -/
def defaultMigrationConfig : MigrationDetectorConfig :=
  { migrationThreshold := 18
    preMigrationBuffer := 1/2
    confirmationBlocks := 3
    maxTokensToMonitor := 50 }

/-- `MigrationDetector.calculateMigrationProbability`: 1.0 at or past the
threshold, a linear 0.7→1.0 ramp inside the buffer zone, otherwise
`min (progress × marketCap/threshold) 0.7`. -/
def calculateMigrationProbability (cfg : MigrationDetectorConfig)
    (currentMarketCap bondingCurveProgress : ℚ) : ℚ :=
  let threshold := cfg.migrationThreshold
  let buffer := cfg.preMigrationBuffer
  if currentMarketCap ≥ threshold then 1
  else if currentMarketCap ≥ threshold - buffer then
    let progressInBuffer := (currentMarketCap - (threshold - buffer)) / buffer
    7/10 + progressInBuffer * (3/10)
  else
    min (bondingCurveProgress * (currentMarketCap / threshold)) (7/10)

/-- `MigrationDetector.estimateTimeToMigration`: 0 at the threshold,
otherwise `distance / (progress/100)` floored below at 1000 ms. -/
def estimateTimeToMigration (distanceToMigration bondingCurveProgress : ℚ) : ℚ :=
  if distanceToMigration ≤ 0 then 0
  else
    let progressRate := bondingCurveProgress / 100
    let estimatedTime := distanceToMigration / progressRate
    max estimatedTime 1000

/-- The crossing-probability formula exactly as the specification words it
(piecewise, with the ramp written `0.7 + 0.3·(mc − (θ−b))/b` and the outer
`min` taking 0.7 first). -/
def crossingProbabilitySpec (threshold buffer marketCap bondingCurveProgress : ℚ) : ℚ :=
  if marketCap ≥ threshold then 1
  else if marketCap ≥ threshold - buffer then
    7/10 + (3/10) * (marketCap - (threshold - buffer)) / buffer
  else
    min (7/10) (bondingCurveProgress * (marketCap / threshold))

/-! ## MigrationDetector: monitored-token registry and the monitoring loop -/

/-- `TokenData` (the fields the verified logic reads/writes; the remaining
metadata fields — decimals, supply, bonding-curve address — play no role in
the claims). `isMigrated` is set by `fetchTokenData` at registration time and
flipped to `true` by `handleMigrationEvent`. -/
structure TokenData where
  name : String
  symbol : String
  isMigrated : Bool
deriving DecidableEq, Repr

/-- The mutable state of a `MigrationDetector`: the insertion-ordered
monitored-token map, and the ordered log of `migrationDetected` emissions
(one entry per emitted event, recorded by token address). -/
structure DetectorState where
  tokens : List (String × TokenData)
  log : List String
deriving DecidableEq, Repr

/-- `MigrationDetector.addToken`: a no-op (with a warning, not an error) if
the address is already monitored; an error past `maxTokensToMonitor`;
otherwise the token is inserted.  The externally fetched `TokenData` is
passed in as `td` (the success path of `fetchTokenData`). -/
def addToken (cfg : MigrationDetectorConfig) (s : DetectorState)
    (tokenAddress : String) (td : TokenData) : Except String DetectorState :=
  if (lookupKey s.tokens tokenAddress).isSome then .ok s
  else if s.tokens.length ≥ cfg.maxTokensToMonitor then
    .error ("Maximum monitoring limit reached: " ++ toString cfg.maxTokensToMonitor)
  else .ok { s with tokens := s.tokens ++ [(tokenAddress, td)] }

/-- One pass of `checkTokenMigration` over a single monitored token:
if the token is not yet migrated and the freshly computed market cap has
reached the threshold, `handleMigrationEvent` runs — on success (`ok`) it
sets `isMigrated := true` and emits `migrationDetected`; a failure inside it
is caught and leaves the token untouched.  Returns the updated entry and the
events emitted for it. -/
def checkOne (cfg : MigrationDetectorConfig) (mc : String → ℚ) (ok : String → Bool)
    (t : String × TokenData) : (String × TokenData) × List String :=
  if t.2.isMigrated = false ∧ mc t.1 ≥ cfg.migrationThreshold then
    if ok t.1 then ((t.1, { t.2 with isMigrated := true }), [t.1])
    else (t, [])
  else (t, [])

/-- The body of `checkAllTokens`: process every monitored token in order,
collecting the emitted events. -/
def tickTokens (cfg : MigrationDetectorConfig) (mc : String → ℚ) (ok : String → Bool) :
    List (String × TokenData) → List (String × TokenData) × List String
  | [] => ([], [])
  | t :: ts =>
    let r := checkOne cfg mc ok t
    let rest := tickTokens cfg mc ok ts
    (r.1 :: rest.1, r.2 ++ rest.2)

/-- `MigrationDetector.checkAllTokens`, one monitoring tick: `mc` is the
market cap the tick reads for each address, `ok` tells whether the
confirmation/emission step completes without an exception. -/
def checkAllTokens (cfg : MigrationDetectorConfig) (mc : String → ℚ)
    (ok : String → Bool) (s : DetectorState) : DetectorState :=
  ⟨(tickTokens cfg mc ok s.tokens).1, s.log ++ (tickTokens cfg mc ok s.tokens).2⟩

/-- A run of the monitoring loop: one `checkAllTokens` per tick, each tick
with its own market-cap reading and success oracle. -/
def runDetector (cfg : MigrationDetectorConfig)
    (ticks : List ((String → ℚ) × (String → Bool))) (s : DetectorState) : DetectorState :=
  ticks.foldl (fun s t => checkAllTokens cfg t.1 t.2 s) s

/-- The migration flag recorded for address `a` (`none` when unmonitored). -/
def flagOf (ts : List (String × TokenData)) (a : String) : Option Bool :=
  (lookupKey ts a).map TokenData.isMigrated

/-- The reachable-state invariant behind C1: monitored keys are unique (a JS
`Map`), every address occurs at most once in the `migrationDetected` log, and
a logged address carries the `migrated` flag. -/
def DetectorInv (s : DetectorState) : Prop :=
  (s.tokens.map Prod.fst).Nodup ∧
    ∀ a, s.log.count a ≤ 1 ∧ (a ∈ s.log → flagOf s.tokens a = some true)

/-! ## TransitionLogic: strategies, positions and the lifecycle state machine
(`core/src/transition-logic/TransitionLogic.ts`) -/

/-- `TransitionStrategy` (field `maxHoldTime` in milliseconds; `buyAmount`
in wei). -/
structure TransitionStrategy where
  name : String
  description : String
  buyAmount : ℤ
  sellThreshold : ℚ
  stopLossThreshold : ℚ
  maxHoldTime : ℤ
  enablePartialSells : Bool
  partialSellPercentages : List ℚ
deriving DecidableEq, Repr

/-- `TransitionConfig` (the `strategies` map in insertion order). -/
structure TransitionConfig where
  defaultStrategy : String
  strategies : List (String × TransitionStrategy)
  maxConcurrentTrades : ℕ
  maxTotalExposure : ℤ
  enableRiskManagement : Bool
  enableProfitTaking : Bool
  enableStopLosses : Bool
  slippageBuffer : ℚ
deriving DecidableEq, Repr

/-- Position status.  The source's union type is
`'ACTIVE' | 'CLOSED' | 'STOPPED'` — there is no `FAILED` member. -/
inductive PositionStatus
  | ACTIVE
  | CLOSED
  | STOPPED
deriving DecidableEq, Repr

/-- The exit causes produced by `checkExitConditions`, by their reason
strings (see `exitReasonText`). -/
inductive ExitReason
  | strategyNotFound
  | stopLoss
  | profitTarget
  | maxHold
  | ladderSell (percentage : ℚ)
deriving DecidableEq, Repr

/-- The reason strings of the source. -/
def exitReasonText : ExitReason → String
  | .strategyNotFound => "Strategy not found"
  | .stopLoss => "Stop loss triggered"
  | .profitTarget => "Profit threshold reached"
  | .maxHold => "Max hold time reached"
  | .ladderSell p => "Partial sell at " ++ toString p ++ "% profit"

/-- `TradePosition`.  `partialSells` mirrors the field that
`checkExitConditions` reads (`position.partialSells?.includes(...)`): it is
not declared on the interface and no code path ever assigns it, so it is
`none` on every position the system creates. -/
structure TradePosition where
  id : String
  tokenAddress : String
  tokenSymbol : String
  entryPrice : ℚ
  entryAmount : ℤ
  tokenAmount : ℤ
  strategy : String
  entryTime : ℤ
  currentPrice : Option ℚ := none
  currentValue : Option ℤ := none
  profitLoss : Option ℚ := none
  profitLossPercent : Option ℚ := none
  status : PositionStatus
  exitPrice : Option ℚ := none
  exitTime : Option ℤ := none
  exitReason : Option ExitReason := none
  gasUsed : Option ℤ := none
  partialSells : Option (List ℚ) := none
deriving DecidableEq, Repr

/-- The mutable collections of a `TransitionLogic` instance. -/
structure TransitionState where
  activePositions : List (String × TradePosition)
  completedPositions : List (String × TradePosition)
  positionCounter : ℕ
deriving DecidableEq, Repr

/-- JS semantics of `x! < q` on an optional number: comparing `undefined`
with anything is `false`. -/
def jsOptLt (o : Option ℚ) (q : ℚ) : Bool :=
  match o with
  | some v => v < q
  | none => false

/-- JS semantics of `x! >= q` on an optional number. -/
def jsOptGe (o : Option ℚ) (q : ℚ) : Bool :=
  match o with
  | some v => v ≥ q
  | none => false

/-- `position.partialSells?.includes(percentage)` — `undefined` is falsy. -/
def partialSellsIncludes (p : TradePosition) (percentage : ℚ) : Bool :=
  match p.partialSells with
  | some l => percentage ∈ l
  | none => false

/-- The two built-in strategies of `loadTransitionConfig`. -/
def aggressiveStrategy : TransitionStrategy :=
  { name := "aggressive"
    description := "High risk, high reward strategy"
    buyAmount := 10 ^ 17
    sellThreshold := 50
    stopLossThreshold := 20
    maxHoldTime := 3600000
    enablePartialSells := true
    partialSellPercentages := [25, 50, 75] }

def conservativeStrategy : TransitionStrategy :=
  { name := "conservative"
    description := "Low risk, steady returns strategy"
    buyAmount := 5 * 10 ^ 16
    sellThreshold := 20
    stopLossThreshold := 10
    maxHoldTime := 1800000
    enablePartialSells := false
    partialSellPercentages := [] }

/-- `loadTransitionConfig` with the configuration defaults
(`DEFAULT_STRATEGY = 'aggressive'`, `MAX_CONCURRENT_TRADES = 5`,
`MAX_TOTAL_EXPOSURE = 1` BNB = 10¹⁸ wei, all toggles on,
`SLIPPAGE_BUFFER = 0.05`). -/
def defaultTransitionConfig : TransitionConfig :=
  { defaultStrategy := "aggressive"
    strategies := [("aggressive", aggressiveStrategy),
                   ("conservative", conservativeStrategy)]
    maxConcurrentTrades := 5
    maxTotalExposure := 10 ^ 18
    enableRiskManagement := true
    enableProfitTaking := true
    enableStopLosses := true
    slippageBuffer := 1/20 }

/-- `this.transitionConfig.strategies.get(name)`. -/
def lookupStrategy (cfg : TransitionConfig) (name : String) : Option TransitionStrategy :=
  lookupKey cfg.strategies name

/-- `TransitionLogic.updatePositionStatus`: refresh the price-derived
fields.  `currentValue = BigInt(Math.floor(Number(tokenAmount) ×
currentPrice / 1e18))`, `profitLoss = currentValue − entryAmount`,
`profitLossPercent = profitLoss / entryAmount × 100`. -/
def updatePositionStatus (currentPrice : ℚ) (p : TradePosition) : TradePosition :=
  let currentValue : ℤ := ((p.tokenAmount : ℚ) * currentPrice / (10 ^ 18 : ℚ)).floor
  let profitLoss : ℚ := (currentValue : ℚ) - (p.entryAmount : ℚ)
  let profitLossPercent : ℚ := profitLoss / (p.entryAmount : ℚ) * 100
  { p with currentPrice := some currentPrice,
           currentValue := some currentValue,
           profitLoss := some profitLoss,
           profitLossPercent := some profitLossPercent }

/-- `TransitionLogic.checkExitConditions`: the per-tick exit decision.
Checks, in source order: missing strategy, stop loss
(`profitLossPercent! < −stopLossThreshold`, strict), profit target
(`profitLossPercent! ≥ sellThreshold`), max hold time
(`now − entryTime > maxHoldTime`, strict), then the partial-sell loop over
`partialSellPercentages` in array order. -/
def checkExitConditions (cfg : TransitionConfig) (now : ℤ) (p : TradePosition) :
    Option ExitReason :=
  match lookupStrategy cfg p.strategy with
  | none => some .strategyNotFound
  | some strategy =>
    if cfg.enableStopLosses && jsOptLt p.profitLossPercent (-strategy.stopLossThreshold) then
      some .stopLoss
    else if cfg.enableProfitTaking && jsOptGe p.profitLossPercent strategy.sellThreshold then
      some .profitTarget
    else if now - p.entryTime > strategy.maxHoldTime then
      some .maxHold
    else if strategy.enablePartialSells then
      match strategy.partialSellPercentages.find?
          (fun percentage => jsOptGe p.profitLossPercent percentage &&
            !(partialSellsIncludes p percentage)) with
      | some percentage => some (.ladderSell percentage)
      | none => none
    else none

/-- `TransitionLogic.executeExitStrategy`: attempt the sell.  On success the
position becomes CLOSED, is stamped with exit price/time/reason and moved to
`completedPositions`; on failure the position object (still in
`activePositions`) merely has its status set to STOPPED.  `sellOutcome` is
the swap result: `some gas` on success, `none` on failure. -/
def executeExitStrategy (now : ℤ) (sellOutcome : Option ℤ) (p : TradePosition)
    (reason : ExitReason) (s : TransitionState) : TransitionState :=
  match sellOutcome with
  | some gas =>
    let closed := { p with status := .CLOSED,
                           exitPrice := p.currentPrice,
                           exitTime := some now,
                           exitReason := some reason,
                           gasUsed := some ((p.gasUsed.getD 0) + gas) }
    { s with activePositions := removeKey s.activePositions p.id,
             completedPositions := s.completedPositions ++ [(p.id, closed)] }
  | none =>
    let stopped := { p with status := .STOPPED }
    { s with activePositions := setKey s.activePositions p.id stopped }

/-- One unit of the `monitorPositions` loop body for the position stored
under `pid`: refresh its status from the quoted price, then evaluate and, if
an exit cause holds, execute the exit. -/
def monitorStep (cfg : TransitionConfig) (now : ℤ) (price : String → ℚ)
    (sellOutcome : String → Option ℤ) (s : TransitionState) (pid : String) :
    TransitionState :=
  match lookupKey s.activePositions pid with
  | none => s
  | some p =>
    let p₁ := updatePositionStatus (price p.tokenAddress) p
    let s₁ := { s with activePositions := setKey s.activePositions pid p₁ }
    match checkExitConditions cfg now p₁ with
    | some reason => executeExitStrategy now (sellOutcome pid) p₁ reason s₁
    | none => s₁

/-- `TransitionLogic.monitorPositions`, one monitoring tick: iterate over
the active positions (by the keys present at the start of the tick). -/
def monitorPositions (cfg : TransitionConfig) (now : ℤ) (price : String → ℚ)
    (sellOutcome : String → Option ℤ) (s : TransitionState) : TransitionState :=
  (s.activePositions.map Prod.fst).foldl (monitorStep cfg now price sellOutcome) s

/-- The liquidity guard of `handleMigrationEvent`:
`migrationSwapData.liquidityBNB < strategies.get('default')?.buyAmount || 0n`.
`strategies` holds only `'aggressive'` and `'conservative'`, so the lookup
is `undefined`; a JS `<` against `undefined` is `false`, and
`false || BigInt(0)` is the falsy `0n` — the guard never triggers. -/
def liquidityGuardSkips (cfg : TransitionConfig) (liquidityBNB : ℤ) : Bool :=
  match lookupStrategy cfg "default" with
  | some st => liquidityBNB < st.buyAmount
  | none => false

/-- `generatePositionId`: `pos_${Date.now()}_${++positionCounter}`. -/
def generatePositionId (now : ℤ) (counter : ℕ) : String :=
  "pos_" ++ toString now ++ "_" ++ toString counter

/-- `TransitionLogic.handleMigrationEvent` followed by
`executeTransitionStrategy` on the success path: skip when
`activePositions.size ≥ maxConcurrentTrades`, skip on the (vacuous)
liquidity guard, abort when the default strategy is missing or the buy swap
fails, else create the position in ACTIVE with
`entryAmount = strategy.buyAmount` and the bought `tokenAmount`.
`buyOutcome` is the buy-swap result (`some tokenAmount` on success). -/
def handleMigrationEvent (cfg : TransitionConfig) (now : ℤ)
    (tokenAddress tokenSymbol : String) (currentMarketCap : ℚ)
    (liquidityBNB : ℤ) (buyOutcome : Option ℤ) (s : TransitionState) :
    TransitionState :=
  if s.activePositions.length ≥ cfg.maxConcurrentTrades then s
  else if liquidityGuardSkips cfg liquidityBNB then s
  else
    match lookupStrategy cfg cfg.defaultStrategy, buyOutcome with
    | some strategy, some tokenAmount =>
      let pid := generatePositionId now (s.positionCounter + 1)
      let position : TradePosition :=
        { id := pid
          tokenAddress := tokenAddress
          tokenSymbol := tokenSymbol
          entryPrice := currentMarketCap / (tokenAmount : ℚ) * 10 ^ 18
          entryAmount := strategy.buyAmount
          tokenAmount := tokenAmount
          strategy := strategy.name
          entryTime := now
          status := .ACTIVE }
      { s with activePositions := s.activePositions ++ [(pid, position)],
               positionCounter := s.positionCounter + 1 }
    | _, _ => s

/-- Whether a `handleMigrationEvent` call opened a new position. -/
def opensPosition (cfg : TransitionConfig) (now : ℤ)
    (tokenAddress tokenSymbol : String) (currentMarketCap : ℚ)
    (liquidityBNB : ℤ) (buyOutcome : Option ℤ) (s : TransitionState) : Bool :=
  (handleMigrationEvent cfg now tokenAddress tokenSymbol currentMarketCap
      liquidityBNB buyOutcome s).activePositions.length > s.activePositions.length

/-- Total entry exposure across ACTIVE positions (wei). -/
def totalActiveExposure (s : TransitionState) : ℤ :=
  (s.activePositions.map (fun kp => kp.2.entryAmount)).sum

/-- The record returned by `TransitionLogic.getPositionStats` (counts,
realized totals, average and success rate). -/
structure PositionStats where
  activePositions : ℕ
  completedPositions : ℕ
  totalProfit : ℚ
  totalGasUsed : ℤ
  averageProfit : ℚ
  successRate : ℚ
deriving DecidableEq, Repr

/-- `TransitionLogic.getPositionStats`: totals over completed positions with
`pos.profitLoss || 0` defaulting, and ternary guards against an empty
completed set for `averageProfit` and `successRate`. -/
def getPositionStats (s : TransitionState) : PositionStats :=
  let active := s.activePositions.map Prod.snd
  let completed := s.completedPositions.map Prod.snd
  let totalProfit := (completed.map (fun pos => pos.profitLoss.getD 0)).sum
  let totalGasUsed := (completed.map (fun pos => pos.gasUsed.getD 0)).sum
  { activePositions := active.length
    completedPositions := completed.length
    totalProfit := totalProfit
    totalGasUsed := totalGasUsed
    averageProfit := if completed.length > 0 then totalProfit / (completed.length : ℚ) else 0
    successRate := if completed.length > 0 then
        (((completed.filter (fun pos => pos.profitLoss.getD 0 > 0)).length : ℚ) /
          (completed.length : ℚ))
      else 0 }

/-! ## Scenario fixtures (concrete values used by witnesses and
counterexamples; entry 0.1 BNB = 10¹⁷ wei into 10¹⁸ token base units on the
`aggressive` strategy, so a quoted price of `r·10¹⁶` wei yields
`profitLossPercent = 10·r − 100`) -/

def samplePosition : TradePosition :=
  { id := "p1"
    tokenAddress := "tok"
    tokenSymbol := "TOK"
    entryPrice := 1
    entryAmount := 10 ^ 17
    tokenAmount := 10 ^ 18
    strategy := "aggressive"
    entryTime := 0
    status := .ACTIVE }

def sampleState : TransitionState := ⟨[("p1", samplePosition)], [], 0⟩

/-- An ACTIVE position whose entry already consumed the whole 1 BNB
exposure cap. -/
def exposedPosition : TradePosition :=
  { samplePosition with id := "p0", entryAmount := 10 ^ 18 }

/-- A completed winning position and the corresponding book (fixture for
the C10 witness). -/
def winningClosedPosition : TradePosition :=
  { samplePosition with status := .CLOSED, profitLoss := some 1 }

def statsSampleState : TransitionState := ⟨[], [("p1", winningClosedPosition)], 1⟩

/-- `samplePosition` after a failed sell at `pnlPercent = 50`: refreshed
fields, status STOPPED, still carrying no exit stamp. -/
def stopped50 : TradePosition :=
  { updatePositionStatus (15 * 10 ^ 16) samplePosition with status := .STOPPED }

/-- `samplePosition` after a failed ladder-triggered sell at
`pnlPercent = 30`. -/
def stopped30 : TradePosition :=
  { updatePositionStatus (13 * 10 ^ 16) samplePosition with status := .STOPPED }

/-- C6: the computed crossing probability agrees with the specification's
piecewise reference definition on the stated domain. -/
theorem calculateMigrationProbability_eq_spec (cfg : MigrationDetectorConfig)
    (marketCap bondingCurveProgress : ℚ)
    (hmc : 0 ≤ marketCap) (hp0 : 0 ≤ bondingCurveProgress)
    (hp1 : bondingCurveProgress ≤ 1)
    (hθ : 0 < cfg.migrationThreshold) (hb : 0 < cfg.preMigrationBuffer) :
    calculateMigrationProbability cfg marketCap bondingCurveProgress =
      crossingProbabilitySpec cfg.migrationThreshold cfg.preMigrationBuffer
        marketCap bondingCurveProgress := by
  simp only [calculateMigrationProbability, crossingProbabilitySpec]
  split_ifs
  · rfl
  · ring
  · rw [min_comm]

/-- Witness for C6 at `marketCap = 17.8`, `progress = 0.9`, default config
(inside the buffer zone). -/
theorem calculateMigrationProbability_eq_spec_witness :
    (0:ℚ) ≤ 89/5 ∧
      calculateMigrationProbability defaultMigrationConfig (89/5) (9/10) =
        crossingProbabilitySpec 18 (1/2) (89/5) (9/10) := by
  refine ⟨by norm_num, ?_⟩
  exact calculateMigrationProbability_eq_spec defaultMigrationConfig (89/5) (9/10)
    (by norm_num) (by norm_num) (by norm_num)
    (by norm_num [defaultMigrationConfig]) (by norm_num [defaultMigrationConfig])

/-- C9: holding the bonding-curve progress (hence the derived progress rate)
fixed and positive, the estimated time to migration is monotone in the
distance to the threshold. -/
theorem estimateTimeToMigration_monotone (bondingCurveProgress d₁ d₂ : ℚ)
    (hr : 0 < bondingCurveProgress) (hd : d₁ ≤ d₂) :
    estimateTimeToMigration d₁ bondingCurveProgress ≤
      estimateTimeToMigration d₂ bondingCurveProgress := by
  simp only [estimateTimeToMigration]
  have hrate : 0 < bondingCurveProgress / 100 := by positivity
  split_ifs with h1 h2 h2
  · exact le_rfl
  · exact le_max_of_le_right (by norm_num)
  · exact absurd (hd.trans h2) h1
  · exact max_le_max (by gcongr) le_rfl

/-- Witness for C9 at progress 0.5 and distances 3 ≤ 5. -/
theorem estimateTimeToMigration_monotone_witness :
    (0:ℚ) < 1/2 ∧ (3:ℚ) ≤ 5 ∧
      estimateTimeToMigration 3 (1/2) ≤ estimateTimeToMigration 5 (1/2) :=
  ⟨by norm_num, by norm_num,
    estimateTimeToMigration_monotone (1/2) 3 5 (by norm_num) (by norm_num)⟩

/-- C8: registration is idempotent and capacity-limited.  With at most one
entry for `a` in the monitored map (true of every reachable state, the map
being keyed by address): a successful `addToken a` leaves exactly one entry
for `a` and re-adding is a no-op, not an error; a fresh address past the cap
fails with the capacity error; and a successful add never grows the map past
the cap. -/
theorem addToken_idempotent_capped (cfg : MigrationDetectorConfig)
    (s : DetectorState) (a : String) (td td' : TokenData)
    (hcount : (s.tokens.map Prod.fst).count a ≤ 1) :
    (∀ s₁, addToken cfg s a td = .ok s₁ →
        ((s₁.tokens.map Prod.fst).count a = 1 ∧ addToken cfg s₁ a td' = .ok s₁))
    ∧ (lookupKey s.tokens a = none → s.tokens.length = cfg.maxTokensToMonitor →
        addToken cfg s a td =
          .error ("Maximum monitoring limit reached: " ++ toString cfg.maxTokensToMonitor))
    ∧ (s.tokens.length ≤ cfg.maxTokensToMonitor →
        ∀ s₁, addToken cfg s a td = .ok s₁ → s₁.tokens.length ≤ cfg.maxTokensToMonitor) := by
  have hlk : ∀ (l : List (String × TokenData)), (lookupKey l a).isSome ↔ a ∈ l.map Prod.fst := by
    intro l
    induction l with
    | nil => simp [lookupKey]
    | cons t ts ih =>
      by_cases h : t.1 = a
      · simp [lookupKey, h]
      · simp [lookupKey, h, ih, Ne.symm h]
  refine ⟨?_, ?_, ?_⟩
  · intro s₁ h₁
    by_cases hmem : (lookupKey s.tokens a).isSome
    · have hs₁ : s₁ = s := by
        simp only [addToken, if_pos hmem] at h₁
        exact ((Except.ok.injEq _ _).mp h₁).symm
      rw [hs₁]
      have hin : a ∈ s.tokens.map Prod.fst := (hlk _).mp hmem
      have h1 : 0 < (s.tokens.map Prod.fst).count a := List.count_pos_iff.mpr hin
      exact ⟨le_antisymm hcount h1, by simp only [addToken, if_pos hmem]⟩
    · have hnotin : a ∉ s.tokens.map Prod.fst := fun h => hmem ((hlk _).mpr h)
      by_cases hcap : s.tokens.length ≥ cfg.maxTokensToMonitor
      · simp [addToken, hmem, hcap] at h₁
      · have hs₁ : s₁ = { s with tokens := s.tokens ++ [(a, td)] } := by
          simp only [addToken, if_neg hmem, if_neg hcap] at h₁
          exact ((Except.ok.injEq _ _).mp h₁).symm
        subst hs₁
        constructor
        · simp [List.count_append, List.count_eq_zero.mpr hnotin]
        · have hmem' : (lookupKey (s.tokens ++ [(a, td)]) a).isSome := by
            rw [hlk]
            simp
          simp only [addToken, if_pos hmem']
  · intro hnone hlen
    have hmem : ¬(lookupKey s.tokens a).isSome = true := by simp [hnone]
    simp [addToken, hmem, hlen]
  · intro hlen s₁ h₁
    by_cases hmem : (lookupKey s.tokens a).isSome
    · have hs₁ : s₁ = s := by
        simp only [addToken, if_pos hmem] at h₁
        exact ((Except.ok.injEq _ _).mp h₁).symm
      subst hs₁; exact hlen
    · by_cases hcap : s.tokens.length ≥ cfg.maxTokensToMonitor
      · simp [addToken, hmem, hcap] at h₁
      · have hs₁ : s₁ = { s with tokens := s.tokens ++ [(a, td)] } := by
          simp only [addToken, if_neg hmem, if_neg hcap] at h₁
          exact ((Except.ok.injEq _ _).mp h₁).symm
        subst hs₁
        simp only [List.length_append, List.length_singleton]
        omega

/-- Witness for C8: adding a fresh token to an empty detector under the
default 50-token cap. -/
theorem addToken_idempotent_capped_witness :
    (((⟨[], []⟩ : DetectorState).tokens.map Prod.fst).count "0xabc" ≤ 1) ∧
      ∀ s₁, addToken defaultMigrationConfig ⟨[], []⟩ "0xabc" ⟨"Tok", "TOK", false⟩ = .ok s₁ →
        ((s₁.tokens.map Prod.fst).count "0xabc" = 1 ∧
          addToken defaultMigrationConfig s₁ "0xabc" ⟨"Tok", "TOK", false⟩ = .ok s₁) := by
  refine ⟨by decide, ?_⟩
  exact (addToken_idempotent_capped defaultMigrationConfig ⟨[], []⟩ "0xabc"
    ⟨"Tok", "TOK", false⟩ ⟨"Tok", "TOK", false⟩ (by decide)).1

theorem checkOne_fst_key (cfg : MigrationDetectorConfig) (mc : String → ℚ)
    (ok : String → Bool) (t : String × TokenData) :
    (checkOne cfg mc ok t).1.1 = t.1 := by
  unfold checkOne
  split_ifs <;> rfl

theorem checkOne_mem_snd (cfg : MigrationDetectorConfig) (mc : String → ℚ)
    (ok : String → Bool) (t : String × TokenData) (a : String)
    (h : a ∈ (checkOne cfg mc ok t).2) : a = t.1 := by
  unfold checkOne at h
  split_ifs at h <;> simp_all

theorem checkOne_migrated (cfg : MigrationDetectorConfig) (mc : String → ℚ)
    (ok : String → Bool) (t : String × TokenData) (h : t.2.isMigrated = true) :
    checkOne cfg mc ok t = (t, []) := by
  unfold checkOne
  rw [if_neg]
  simp [h]

theorem checkOne_emit_flag (cfg : MigrationDetectorConfig) (mc : String → ℚ)
    (ok : String → Bool) (t : String × TokenData) (a : String)
    (h : a ∈ (checkOne cfg mc ok t).2) :
    (checkOne cfg mc ok t).1.2.isMigrated = true := by
  unfold checkOne at h ⊢
  split_ifs with h1 h2 <;> simp_all

theorem tickTokens_keys (cfg : MigrationDetectorConfig) (mc : String → ℚ)
    (ok : String → Bool) (ts : List (String × TokenData)) :
    ((tickTokens cfg mc ok ts).1).map Prod.fst = ts.map Prod.fst := by
  induction ts with
  | nil => rfl
  | cons t ts ih => simp [tickTokens, checkOne_fst_key, ih]

theorem tickTokens_mem_snd (cfg : MigrationDetectorConfig) (mc : String → ℚ)
    (ok : String → Bool) (ts : List (String × TokenData)) (a : String)
    (h : a ∈ (tickTokens cfg mc ok ts).2) : a ∈ ts.map Prod.fst := by
  induction ts with
  | nil => simp [tickTokens] at h
  | cons t ts ih =>
    simp only [tickTokens, List.mem_append] at h
    rcases h with h | h
    · exact (checkOne_mem_snd cfg mc ok t a h) ▸ List.mem_cons_self _ _
    · exact List.mem_cons_of_mem _ (ih h)

theorem tickTokens_count_le_one (cfg : MigrationDetectorConfig) (mc : String → ℚ)
    (ok : String → Bool) (ts : List (String × TokenData)) (a : String)
    (hnd : (ts.map Prod.fst).Nodup) :
    (tickTokens cfg mc ok ts).2.count a ≤ 1 := by
  induction ts with
  | nil => simp [tickTokens]
  | cons t ts ih =>
    simp only [List.map_cons, List.nodup_cons] at hnd
    simp only [tickTokens, List.count_append]
    by_cases hmem : a ∈ (checkOne cfg mc ok t).2
    · have ha : a = t.1 := checkOne_mem_snd cfg mc ok t a hmem
      have htail : a ∉ (tickTokens cfg mc ok ts).2 := fun hc =>
        hnd.1 (ha ▸ tickTokens_mem_snd cfg mc ok ts a hc)
      have hc2 : (tickTokens cfg mc ok ts).2.count a = 0 := List.count_eq_zero.mpr htail
      have hhead : (checkOne cfg mc ok t).2.count a ≤ 1 := by
        refine le_trans (List.count_le_length _ _) ?_
        unfold checkOne
        split_ifs <;> simp
      omega
    · have hc1 : (checkOne cfg mc ok t).2.count a = 0 := List.count_eq_zero.mpr hmem
      have := ih hnd.2
      omega

theorem tickTokens_flag_true (cfg : MigrationDetectorConfig) (mc : String → ℚ)
    (ok : String → Bool) (ts : List (String × TokenData)) (a : String)
    (hnd : (ts.map Prod.fst).Nodup) (h : flagOf ts a = some true) :
    flagOf (tickTokens cfg mc ok ts).1 a = some true ∧
      a ∉ (tickTokens cfg mc ok ts).2 := by
  induction ts with
  | nil => simp [flagOf, lookupKey] at h
  | cons t ts ih =>
    simp only [List.map_cons, List.nodup_cons] at hnd
    by_cases hk : t.1 = a
    · have hflag : t.2.isMigrated = true := by
        simp [flagOf, lookupKey, hk] at h
        exact h
      have hco := checkOne_migrated cfg mc ok t hflag
      constructor
      · simp [tickTokens, hco, flagOf, lookupKey, hk, hflag]
      · simp only [tickTokens, hco, List.nil_append]
        exact fun hc => hnd.1 (hk ▸ tickTokens_mem_snd cfg mc ok ts a hc)
    · have htail : flagOf ts a = some true := by
        simpa [flagOf, lookupKey, hk] using h
      have := ih hnd.2 htail
      constructor
      · have hkey : (checkOne cfg mc ok t).1.1 = t.1 := checkOne_fst_key cfg mc ok t
        simp only [tickTokens, flagOf, lookupKey, hkey, if_neg hk]
        exact this.1
      · simp only [tickTokens, List.mem_append]
        rintro (hc | hc)
        · exact hk (checkOne_mem_snd cfg mc ok t a hc).symm
        · exact this.2 hc

theorem tickTokens_emit_flag (cfg : MigrationDetectorConfig) (mc : String → ℚ)
    (ok : String → Bool) (ts : List (String × TokenData)) (a : String)
    (hnd : (ts.map Prod.fst).Nodup) (h : a ∈ (tickTokens cfg mc ok ts).2) :
    flagOf (tickTokens cfg mc ok ts).1 a = some true := by
  induction ts with
  | nil => simp [tickTokens] at h
  | cons t ts ih =>
    simp only [List.map_cons, List.nodup_cons] at hnd
    simp only [tickTokens, List.mem_append] at h
    rcases h with h | h
    · have ha : a = t.1 := checkOne_mem_snd cfg mc ok t a h
      have hkey : (checkOne cfg mc ok t).1.1 = t.1 := checkOne_fst_key cfg mc ok t
      have hflag := checkOne_emit_flag cfg mc ok t a h
      simp [tickTokens, flagOf, lookupKey, hkey, ha, hflag]
    · have ha : a ≠ t.1 := fun hc =>
        hnd.1 (hc ▸ tickTokens_mem_snd cfg mc ok ts a h)
      have hkey : (checkOne cfg mc ok t).1.1 = t.1 := checkOne_fst_key cfg mc ok t
      simp only [tickTokens, flagOf, lookupKey, hkey, if_neg (Ne.symm ha ∘ Eq.symm)]
      rw [if_neg fun hc => ha hc.symm]
      exact ih hnd.2 h

theorem checkAllTokens_inv (cfg : MigrationDetectorConfig) (mc : String → ℚ)
    (ok : String → Bool) (s : DetectorState) (hinv : DetectorInv s) :
    DetectorInv (checkAllTokens cfg mc ok s) := by
  obtain ⟨hnd, hlog⟩ := hinv
  refine ⟨?_, fun a => ⟨?_, ?_⟩⟩
  · show (((tickTokens cfg mc ok s.tokens).1).map Prod.fst).Nodup
    rw [tickTokens_keys]
    exact hnd
  · show (s.log ++ (tickTokens cfg mc ok s.tokens).2).count a ≤ 1
    rw [List.count_append]
    by_cases hmem : a ∈ s.log
    · have h1 := (hlog a).2 hmem
      have h2 := (tickTokens_flag_true cfg mc ok s.tokens a hnd h1).2
      have := (hlog a).1
      have h0 : ((tickTokens cfg mc ok s.tokens).2).count a = 0 :=
        List.count_eq_zero.mpr h2
      omega
    · have h0 : s.log.count a = 0 := List.count_eq_zero.mpr hmem
      have := tickTokens_count_le_one cfg mc ok s.tokens a hnd
      omega
  · show a ∈ s.log ++ (tickTokens cfg mc ok s.tokens).2 → _
    intro hmem
    rcases List.mem_append.mp hmem with h | h
    · exact (tickTokens_flag_true cfg mc ok s.tokens a hnd ((hlog a).2 h)).1
    · exact tickTokens_emit_flag cfg mc ok s.tokens a hnd h

theorem runDetector_inv (cfg : MigrationDetectorConfig)
    (ticks : List ((String → ℚ) × (String → Bool))) (s : DetectorState)
    (hinv : DetectorInv s) : DetectorInv (runDetector cfg ticks s) := by
  induction ticks generalizing s with
  | nil => exact hinv
  | cons t ticks ih =>
    exact ih _ (checkAllTokens_inv cfg t.1 t.2 s hinv)

/-- C1: over any run of the monitoring loop from a freshly started detector
(unique monitored addresses, empty emission log), `migrationDetected` is
emitted at most once per asset, and an asset that has been emitted carries
the `migrated` flag in the final state (so it is excluded from every later
crossing evaluation). -/
theorem migrationDetected_at_most_once (cfg : MigrationDetectorConfig)
    (ticks : List ((String → ℚ) × (String → Bool)))
    (tokens₀ : List (String × TokenData))
    (hnd : (tokens₀.map Prod.fst).Nodup) (a : String) :
    ((runDetector cfg ticks ⟨tokens₀, []⟩).log.count a ≤ 1) ∧
      (a ∈ (runDetector cfg ticks ⟨tokens₀, []⟩).log →
        flagOf (runDetector cfg ticks ⟨tokens₀, []⟩).tokens a = some true) :=
  (runDetector_inv cfg ticks ⟨tokens₀, []⟩ ⟨hnd, fun _ => ⟨by simp, by simp⟩⟩).2 a

/-- Witness for C1: one token, two consecutive ticks both reading a market
cap of 20 ≥ 18; the event has fired exactly once, and the flag is set. -/
theorem migrationDetected_at_most_once_witness :
    ((([("tok", (⟨"Tok", "TOK", false⟩ : TokenData))].map Prod.fst).Nodup) ∧
      (runDetector defaultMigrationConfig
          [(fun _ => 20, fun _ => true), (fun _ => 20, fun _ => true)]
          ⟨[("tok", ⟨"Tok", "TOK", false⟩)], []⟩).log = ["tok"]) ∧
      ((runDetector defaultMigrationConfig
          [(fun _ => 20, fun _ => true), (fun _ => 20, fun _ => true)]
          ⟨[("tok", ⟨"Tok", "TOK", false⟩)], []⟩).log.count "tok" ≤ 1) := by
  refine ⟨⟨by decide, by decide⟩, ?_⟩
  exact (migrationDetected_at_most_once defaultMigrationConfig
    [(fun _ => 20, fun _ => true), (fun _ => 20, fun _ => true)]
    [("tok", ⟨"Tok", "TOK", false⟩)] (by decide) "tok").1

theorem checkAllTokens_single_below (cfg : MigrationDetectorConfig)
    (mc : String → ℚ) (ok : String → Bool) (a : String) (td : TokenData)
    (l : List String) (h : mc a < cfg.migrationThreshold) :
    checkAllTokens cfg mc ok ⟨[(a, td)], l⟩ = ⟨[(a, td)], l⟩ := by
  have hco : checkOne cfg mc ok (a, td) = ((a, td), []) := by
    unfold checkOne
    rw [if_neg]
    rintro ⟨-, h2⟩
    exact absurd h2 (not_le.mpr h)
  simp [checkAllTokens, tickTokens, hco]

theorem checkAllTokens_single_fires (cfg : MigrationDetectorConfig)
    (mc : String → ℚ) (ok : String → Bool) (a : String) (td : TokenData)
    (l : List String) (hm : td.isMigrated = false)
    (h : mc a ≥ cfg.migrationThreshold) (hok : ok a = true) :
    checkAllTokens cfg mc ok ⟨[(a, td)], l⟩ =
      ⟨[(a, { td with isMigrated := true })], l ++ [a]⟩ := by
  have hco : checkOne cfg mc ok (a, td) = ((a, { td with isMigrated := true }), [a]) := by
    unfold checkOne
    rw [if_pos ⟨hm, h⟩, if_pos hok]
  simp [checkAllTokens, tickTokens, hco]

theorem runDetector_single_below (cfg : MigrationDetectorConfig)
    (ticks : List ((String → ℚ) × (String → Bool))) (a : String)
    (td : TokenData) (l : List String)
    (h : ∀ t ∈ ticks, t.1 a < cfg.migrationThreshold) :
    runDetector cfg ticks ⟨[(a, td)], l⟩ = ⟨[(a, td)], l⟩ := by
  induction ticks with
  | nil => rfl
  | cons t ticks ih =>
    show runDetector cfg ticks (checkAllTokens cfg t.1 t.2 ⟨[(a, td)], l⟩) = _
    rw [checkAllTokens_single_below cfg t.1 t.2 a td l (h t (List.mem_cons_self _ _))]
    exact ih fun u hu => h u (List.mem_cons_of_mem _ hu)

theorem runDetector_single_migrated (cfg : MigrationDetectorConfig)
    (ticks : List ((String → ℚ) × (String → Bool))) (a : String)
    (td : TokenData) (l : List String) (hm : td.isMigrated = true) :
    runDetector cfg ticks ⟨[(a, td)], l⟩ = ⟨[(a, td)], l⟩ := by
  induction ticks with
  | nil => rfl
  | cons t ticks ih =>
    show runDetector cfg ticks (checkAllTokens cfg t.1 t.2 ⟨[(a, td)], l⟩) = _
    have hco := checkOne_migrated cfg t.1 t.2 (a, td) hm
    have : checkAllTokens cfg t.1 t.2 ⟨[(a, td)], l⟩ = ⟨[(a, td)], l⟩ := by
      simp [checkAllTokens, tickTokens, hco]
    rw [this]
    exact ih

/-- C2 counterexample: with threshold 18, buffer 0.5, confirmation setting 3
and per-tick market caps 17.6, 17.9, 18.2, the `migrationDetected` event has
already fired after the third tick — the first tick at or above the
threshold — with no consecutive-tick confirmation count.  The claim requires
no event before tick 5 of the sequence 17.6, 17.9, 18.2, 18.3, 18.4. -/
theorem migration_fires_at_third_tick_counterexample :
    (runDetector defaultMigrationConfig
        [(fun _ => Rat.divInt 88 5, fun _ => true), (fun _ => Rat.divInt 179 10, fun _ => true),
          (fun _ => Rat.divInt 91 5, fun _ => true)]
        ⟨[("tok", ⟨"Tok", "TOK", false⟩)], []⟩).log = ["tok"] := by
  decide

/-- C2 amended: there is no consecutive-tick confirmation window.  For a
fresh (unmigrated) monitored asset, the event fires exactly at the first
monitoring tick whose market-cap reading is at or above the threshold
(assuming the confirmation wait and event construction succeed), and no
event is emitted by the strictly-below-threshold ticks before it; the
`confirmationBlocks` wait does not re-check the market cap, so a regression
below the threshold never resets anything. -/
theorem migration_fires_at_first_crossing (cfg : MigrationDetectorConfig)
    (a nm sym : String) (pre post : List ((String → ℚ) × (String → Bool)))
    (hpre : ∀ t ∈ pre, t.1 a < cfg.migrationThreshold)
    (q : (String → ℚ) × (String → Bool))
    (hq : q.1 a ≥ cfg.migrationThreshold) (hok : q.2 a = true) :
    (runDetector cfg (pre ++ q :: post) ⟨[(a, ⟨nm, sym, false⟩)], []⟩).log = [a]
    ∧ (runDetector cfg pre ⟨[(a, ⟨nm, sym, false⟩)], []⟩).log = [] := by
  have hrunpre : runDetector cfg pre ⟨[(a, ⟨nm, sym, false⟩)], []⟩ =
      ⟨[(a, ⟨nm, sym, false⟩)], []⟩ :=
    runDetector_single_below cfg pre a _ [] hpre
  refine ⟨?_, by rw [hrunpre]⟩
  have hsplit : runDetector cfg (pre ++ q :: post) ⟨[(a, ⟨nm, sym, false⟩)], []⟩ =
      runDetector cfg post (checkAllTokens cfg q.1 q.2
        (runDetector cfg pre ⟨[(a, ⟨nm, sym, false⟩)], []⟩)) := by
    simp [runDetector, List.foldl_append]
  rw [hsplit, hrunpre,
    checkAllTokens_single_fires cfg q.1 q.2 a _ [] rfl hq hok,
    runDetector_single_migrated cfg post a _ _ rfl]
  rfl

/-- Witness for the amended C2: one below-threshold tick (17.6) followed by
a crossing tick (18.2): the event fires at the second tick and the log is
still empty after the first. -/
theorem migration_fires_at_first_crossing_witness :
    (runDetector defaultMigrationConfig
        [(fun _ => Rat.divInt 88 5, fun _ => true), (fun _ => Rat.divInt 91 5, fun _ => true)]
        ⟨[("tok", ⟨"Tok", "TOK", false⟩)], []⟩).log = ["tok"]
    ∧ (runDetector defaultMigrationConfig [(fun _ => Rat.divInt 88 5, fun _ => true)]
        ⟨[("tok", ⟨"Tok", "TOK", false⟩)], []⟩).log = [] := by
  have h := migration_fires_at_first_crossing defaultMigrationConfig "tok" "Tok" "TOK"
    [(fun _ => Rat.divInt 88 5, fun _ => true)] [] (by decide)
    (fun _ => Rat.divInt 91 5, fun _ => true) (by decide) rfl
  simpa using h

/-- `Rat.floor` coincides with the `Int.floor` of Mathlib's `FloorRing ℚ`
instance (definitionally). -/
theorem ratFloor_eq_intFloor (q : ℚ) : q.floor = ⌊q⌋ := rfl

/-- `updatePositionStatus` writes the profit/loss percentage computed from
the quoted price and the entry data. -/
theorem updatePositionStatus_profitLossPercent (price : ℚ) (p : TradePosition) :
    (updatePositionStatus price p).profitLossPercent =
      some (((((p.tokenAmount : ℚ) * price / (10 ^ 18 : ℚ)).floor : ℚ) -
          (p.entryAmount : ℚ)) / (p.entryAmount : ℚ) * 100) := rfl

/-- `checkExitConditions` inspects only the strategy name, the profit/loss
percentage, the entry time and the `partialSells` field. -/
theorem checkExitConditions_eq_of_fields (cfg : TransitionConfig) (now : ℤ)
    (p q : TradePosition) (h1 : p.strategy = q.strategy)
    (h2 : p.profitLossPercent = q.profitLossPercent)
    (h3 : p.entryTime = q.entryTime) (h4 : p.partialSells = q.partialSells) :
    checkExitConditions cfg now p = checkExitConditions cfg now q := by
  unfold checkExitConditions jsOptLt jsOptGe partialSellsIncludes
  simp only [h1, h2, h3, h4]

/-- The profit/loss percentage written for `samplePosition` at a quoted
price of `r · 10¹⁶` wei (`r` integral) is `10·r − 100`. -/
theorem samplePosition_pnl (r : ℤ) :
    (updatePositionStatus ((r : ℚ) * 10 ^ 16) samplePosition).profitLossPercent =
      some (10 * (r : ℚ) - 100) := by
  rw [updatePositionStatus_profitLossPercent, ratFloor_eq_intFloor]
  have h : ((samplePosition.tokenAmount : ℚ) * ((r : ℚ) * 10 ^ 16) / (10 ^ 18 : ℚ)) =
      ((r * 10 ^ 16 : ℤ) : ℚ) := by
    simp only [samplePosition]
    push_cast
    ring
  rw [h, Int.floor_intCast]
  simp only [samplePosition]
  push_cast
  field_simp
  ring

/-- C3 counterexample: at the exact stop-loss boundary the claim requires a
stop-loss exit (`pnlPercent ≤ −stopLossThreshold`), but the source compares
with strict `<`: a position refreshed to `profitLossPercent = −20` under the
`aggressive` strategy (`stopLossThreshold = 20`) produces no exit at all. -/
theorem stopLoss_boundary_counterexample :
    (updatePositionStatus (8 * 10 ^ 16) samplePosition).profitLossPercent = some (-20)
    ∧ aggressiveStrategy.stopLossThreshold = 20
    ∧ checkExitConditions defaultTransitionConfig 0
        (updatePositionStatus (8 * 10 ^ 16) samplePosition) = none := by
  have hp : (updatePositionStatus (8 * 10 ^ 16) samplePosition).profitLossPercent =
      some (-20) := by
    have := samplePosition_pnl 8
    norm_num at this ⊢
    exact this
  refine ⟨hp, rfl, ?_⟩
  have hfields := checkExitConditions_eq_of_fields defaultTransitionConfig 0
    (updatePositionStatus (8 * 10 ^ 16) samplePosition)
    { samplePosition with profitLossPercent := some (-20) } rfl (by rw [hp]) rfl rfl
  rw [hfields]
  rfl

/-- C3 amended: per-tick exit causes are evaluated in strict priority order
with the first match winning — (1) stop-loss when `pnlPercent <
−stopLossThreshold` (strict, not `≤`), (2) profit target when `pnlPercent ≥
sellThreshold`, (3) max hold when `now − entryTime > maxHoldTime`, (4) the
first ladder rung in array order (the built-in ladders are ascending, so the
smallest) with `pnlPercent ≥ rung` not yet recorded as fired.  In
particular, at `pnlPercent = 50` under `aggressive` both the profit target
and the 50-rung hold and the profit target wins with reason
"Profit threshold reached" (see the witness). -/
theorem checkExitConditions_priority (cfg : TransitionConfig) (now : ℤ)
    (p : TradePosition) (strategy : TransitionStrategy)
    (hst : lookupStrategy cfg p.strategy = some strategy)
    (hsl : cfg.enableStopLosses = true) (hpt : cfg.enableProfitTaking = true) :
    (checkExitConditions cfg now p = some .stopLoss ↔
        jsOptLt p.profitLossPercent (-strategy.stopLossThreshold) = true)
    ∧ (checkExitConditions cfg now p = some .profitTarget ↔
        (jsOptLt p.profitLossPercent (-strategy.stopLossThreshold) = false ∧
          jsOptGe p.profitLossPercent strategy.sellThreshold = true))
    ∧ (checkExitConditions cfg now p = some .maxHold ↔
        (jsOptLt p.profitLossPercent (-strategy.stopLossThreshold) = false ∧
          jsOptGe p.profitLossPercent strategy.sellThreshold = false ∧
          now - p.entryTime > strategy.maxHoldTime))
    ∧ (∀ r, checkExitConditions cfg now p = some (.ladderSell r) ↔
        (jsOptLt p.profitLossPercent (-strategy.stopLossThreshold) = false ∧
          jsOptGe p.profitLossPercent strategy.sellThreshold = false ∧
          ¬(now - p.entryTime > strategy.maxHoldTime) ∧
          strategy.enablePartialSells = true ∧
          strategy.partialSellPercentages.find?
            (fun pct => jsOptGe p.profitLossPercent pct &&
              !(partialSellsIncludes p pct)) = some r)) := by
  unfold checkExitConditions
  rw [hst]
  simp only [hsl, hpt, Bool.true_and]
  split_ifs with h1 h2 h3 h4
  · refine ⟨by simp [h1], by simp [h1], by simp [h1], fun r => by simp [h1]⟩
  · refine ⟨by simp [h1, h2], by simp [h1, h2], by simp [h2], fun r => by simp [h2]⟩
  · refine ⟨by simp [h1, h2, h3], by simp [h1, h2, h3], by simp [h1, h2, h3],
      fun r => by simp [h3]⟩
  · cases hfind : strategy.partialSellPercentages.find?
        (fun pct => jsOptGe p.profitLossPercent pct && !(partialSellsIncludes p pct)) with
    | none =>
      refine ⟨by simp [hfind, h1], by simp [hfind, h1, h2], by simp [hfind, h1, h2, h3],
        fun r => by simp [hfind]⟩
    | some pct =>
      refine ⟨?_, ?_, ?_, fun r => ?_⟩
      · simp only [hfind]
        constructor
        · intro h
          exact absurd h (by simp)
        · intro h
          exact absurd h (by simpa using h1)
      · simp only [hfind]
        constructor
        · intro h
          exact absurd h (by simp)
        · rintro ⟨-, hge⟩
          exact absurd hge (by simpa using h2)
      · simp only [hfind]
        constructor
        · intro h
          exact absurd h (by simp)
        · rintro ⟨-, -, hhold⟩
          exact absurd hhold h3
      · simp only [hfind]
        constructor
        · intro h
          have hpr : pct = r := by simpa using h
          exact ⟨by simpa using h1, by simpa using h2, h3, h4, by rw [hpr]⟩
        · rintro ⟨-, -, -, -, hr⟩
          have hpr : pct = r := by simpa using hr
          rw [hpr]
  · refine ⟨by simp [h1], by simp [h1, h2], by simp [h1, h2, h3], fun r => by simp [h4]⟩

/-- Witness for the amended C3 (Scenario C): `samplePosition` refreshed to
`pnlPercent = 50` under `aggressive` — the profit target wins over the
50-rung and the position exit reason is "Profit threshold reached". -/
theorem checkExitConditions_priority_witness :
    checkExitConditions defaultTransitionConfig 0
        (updatePositionStatus (15 * 10 ^ 16) samplePosition) = some .profitTarget
    ∧ jsOptGe (updatePositionStatus (15 * 10 ^ 16) samplePosition).profitLossPercent 50 = true
    ∧ exitReasonText .profitTarget = "Profit threshold reached" := by
  have hp : (updatePositionStatus (15 * 10 ^ 16) samplePosition).profitLossPercent =
      some 50 := by
    have := samplePosition_pnl 15
    norm_num at this ⊢
    exact this
  have h := (checkExitConditions_priority defaultTransitionConfig 0
    (updatePositionStatus (15 * 10 ^ 16) samplePosition) aggressiveStrategy rfl rfl rfl).2.1
  refine ⟨h.mpr ⟨?_, ?_⟩, ?_, rfl⟩
  · rw [hp]
    rfl
  · rw [hp]
    simp [jsOptGe, aggressiveStrategy]
  · rw [hp]
    simp [jsOptGe]

/-- C4 counterexample: with one ACTIVE position of entry 10¹⁸ wei (the whole
`maxTotalExposure`), a migration event still opens a new position — the
concurrency cap (1 < 5) is the only gate — although
`sum(entryAmount) + buyAmount = 1.1·10¹⁸ > maxTotalExposure`. -/
theorem exposure_cap_not_enforced_counterexample :
    opensPosition defaultTransitionConfig 0 "tokB" "TB" 20 (10 ^ 18) (some (10 ^ 20))
        ⟨[("p0", exposedPosition)], [], 0⟩ = true
    ∧ ¬(totalActiveExposure ⟨[("p0", exposedPosition)], [], 0⟩ +
          aggressiveStrategy.buyAmount ≤ defaultTransitionConfig.maxTotalExposure) := by
  constructor
  · rfl
  · decide

/-- C4 amended: a crossing event opens a position only under the concurrency
cap (`activePositions.count < maxConcurrentTrades`); the exposure cap is not
consulted — the outcome of `handleMigrationEvent` is invariant under any
change of `maxTotalExposure`. -/
theorem migration_open_requires_concurrency_only (cfg : TransitionConfig)
    (now : ℤ) (addr sym : String) (mc : ℚ) (liq : ℤ) (buy : Option ℤ)
    (s : TransitionState) :
    (opensPosition cfg now addr sym mc liq buy s = true →
      s.activePositions.length < cfg.maxConcurrentTrades)
    ∧ (∀ e : ℤ,
        handleMigrationEvent { cfg with maxTotalExposure := e } now addr sym mc liq buy s =
          handleMigrationEvent cfg now addr sym mc liq buy s) := by
  constructor
  · intro hopen
    by_contra hcap
    push_neg at hcap
    have hskip : handleMigrationEvent cfg now addr sym mc liq buy s = s := by
      unfold handleMigrationEvent
      rw [if_pos hcap]
    unfold opensPosition at hopen
    rw [hskip] at hopen
    simp at hopen
  · intro e
    rfl

/-- Witness for the amended C4: from an empty book the event opens a
position and the active count is below the cap. -/
theorem migration_open_requires_concurrency_only_witness :
    opensPosition defaultTransitionConfig 0 "tokA" "TA" 20 (10 ^ 18) (some (10 ^ 20))
        ⟨[], [], 0⟩ = true
    ∧ (⟨[], [], 0⟩ : TransitionState).activePositions.length <
        defaultTransitionConfig.maxConcurrentTrades := by
  have hopen : opensPosition defaultTransitionConfig 0 "tokA" "TA" 20 (10 ^ 18)
      (some (10 ^ 20)) ⟨[], [], 0⟩ = true := rfl
  exact ⟨hopen, (migration_open_requires_concurrency_only defaultTransitionConfig 0
    "tokA" "TA" 20 (10 ^ 18) (some (10 ^ 20)) ⟨[], [], 0⟩).1 hopen⟩

/-- C10: `getPositionStats` is total and never divides by zero: with no
completed positions it returns `averageProfit = 0` and `successRate = 0`;
with at least one completed position `successRate` is the number of
completed positions with positive `profitLoss` over the completed count; and
`successRate` always lies in `[0, 1]`. -/
theorem getPositionStats_safe (s : TransitionState) :
    ((getPositionStats s).completedPositions = 0 →
        (getPositionStats s).averageProfit = 0 ∧ (getPositionStats s).successRate = 0)
    ∧ (0 < (getPositionStats s).completedPositions →
        (getPositionStats s).successRate =
          (((s.completedPositions.map Prod.snd).filter
              (fun pos => pos.profitLoss.getD 0 > 0)).length : ℚ) /
            ((s.completedPositions.map Prod.snd).length : ℚ))
    ∧ 0 ≤ (getPositionStats s).successRate
    ∧ (getPositionStats s).successRate ≤ 1 := by
  simp only [getPositionStats]
  refine ⟨?_, ?_, ?_, ?_⟩
  · intro h0
    rw [if_neg (by omega), if_neg (by omega)]
    exact ⟨rfl, rfl⟩
  · intro hpos
    rw [if_pos hpos]
  · by_cases h : (s.completedPositions.map Prod.snd).length > 0
    · rw [if_pos h]
      positivity
    · rw [if_neg h]
  · by_cases h : (s.completedPositions.map Prod.snd).length > 0
    · rw [if_pos h]
      rw [div_le_one (by exact_mod_cast h)]
      exact_mod_cast List.length_filter_le _ _
    · rw [if_neg h]
      norm_num

/-- Witness for C10: a book with exactly one completed (winning) position. -/
theorem getPositionStats_safe_witness :
    0 < (getPositionStats statsSampleState).completedPositions
    ∧ (getPositionStats statsSampleState).successRate =
        (((statsSampleState.completedPositions.map Prod.snd).filter
            (fun pos => pos.profitLoss.getD 0 > 0)).length : ℚ) /
          ((statsSampleState.completedPositions.map Prod.snd).length : ℚ) := by
  refine ⟨by decide, ?_⟩
  exact (getPositionStats_safe statsSampleState).2.1 (by decide)

theorem mem_setKey {β : Type} (l : List (String × β)) (k : String) (v : β)
    (kp : String × β) (h : kp ∈ setKey l k v) : kp.2 = v ∨ kp ∈ l := by
  induction l with
  | nil => simp [setKey] at h
  | cons t ts ih =>
    by_cases hk : t.1 = k
    · simp only [setKey, if_pos hk, List.mem_cons] at h
      rcases h with h | h
      · left
        rw [h]
      · right
        exact List.mem_cons_of_mem _ h
    · simp only [setKey, if_neg hk, List.mem_cons] at h
      rcases h with h | h
      · right
        exact h ▸ List.mem_cons_self _ _
      · rcases ih h with h' | h'
        · exact Or.inl h'
        · exact Or.inr (List.mem_cons_of_mem _ h')

theorem mem_removeKey {β : Type} (l : List (String × β)) (k : String)
    (kp : String × β) (h : kp ∈ removeKey l k) : kp ∈ l := by
  induction l with
  | nil => simp [removeKey] at h
  | cons t ts ih =>
    by_cases hk : t.1 = k
    · simp only [removeKey, if_pos hk] at h
      exact List.mem_cons_of_mem _ h
    · simp only [removeKey, if_neg hk, List.mem_cons] at h
      rcases h with h | h
      · exact h ▸ List.mem_cons_self _ _
      · exact List.mem_cons_of_mem _ (ih h)

theorem lookupKey_mem {β : Type} (l : List (String × β)) (k : String) (v : β)
    (h : lookupKey l k = some v) : (k, v) ∈ l := by
  induction l with
  | nil => simp [lookupKey] at h
  | cons t ts ih =>
    by_cases hk : t.1 = k
    · simp only [lookupKey, if_pos hk] at h
      obtain rfl : t.2 = v := by simpa using h
      exact hk ▸ List.mem_cons_self _ _
    · simp only [lookupKey, if_neg hk] at h
      exact List.mem_cons_of_mem _ (ih h)

/-- A failing sell on a single-position book: the position is refreshed,
the exit cause fires, the sell fails, and the position remains in the active
map with status STOPPED; nothing moves to the completed map. -/
theorem monitorPositions_singleton_fail (cfg : TransitionConfig) (now : ℤ)
    (price : String → ℚ) (sellO : String → Option ℤ) (k : String)
    (p : TradePosition) (comp : List (String × TradePosition)) (n : ℕ)
    (reason : ExitReason) (hid : p.id = k) (hfail : sellO k = none)
    (hexit : checkExitConditions cfg now
        (updatePositionStatus (price p.tokenAddress) p) = some reason) :
    monitorPositions cfg now price sellO ⟨[(k, p)], comp, n⟩ =
      ⟨[(k, { updatePositionStatus (price p.tokenAddress) p with
          status := .STOPPED })], comp, n⟩ := by
  show monitorStep cfg now price sellO ⟨[(k, p)], comp, n⟩ k = _
  unfold monitorStep
  simp only [lookupKey, eq_self_iff_true, if_true]
  rw [hexit]
  unfold executeExitStrategy
  rw [show (updatePositionStatus (price p.tokenAddress) p).id = k from hid]
  rw [hfail]
  simp [setKey]

/-- A succeeding sell on a single-position book: the position is closed,
stamped, and moved from the active to the completed map. -/
theorem monitorPositions_singleton_success (cfg : TransitionConfig) (now : ℤ)
    (price : String → ℚ) (sellO : String → Option ℤ) (k : String)
    (p : TradePosition) (comp : List (String × TradePosition)) (n : ℕ)
    (reason : ExitReason) (gas : ℤ) (hid : p.id = k) (hok : sellO k = some gas)
    (hexit : checkExitConditions cfg now
        (updatePositionStatus (price p.tokenAddress) p) = some reason) :
    monitorPositions cfg now price sellO ⟨[(k, p)], comp, n⟩ =
      ⟨[], comp ++ [(k, { updatePositionStatus (price p.tokenAddress) p with
          status := .CLOSED,
          exitPrice := (updatePositionStatus (price p.tokenAddress) p).currentPrice,
          exitTime := some now,
          exitReason := some reason,
          gasUsed := some ((updatePositionStatus (price p.tokenAddress)
            p).gasUsed.getD 0 + gas) })], n⟩ := by
  show monitorStep cfg now price sellO ⟨[(k, p)], comp, n⟩ k = _
  unfold monitorStep
  simp only [lookupKey, eq_self_iff_true, if_true]
  rw [hexit]
  unfold executeExitStrategy
  rw [show (updatePositionStatus (price p.tokenAddress) p).id = k from hid]
  rw [hok]
  simp [setKey, removeKey]

/-- The profit-target exit cause fires for `samplePosition` refreshed at a
quoted price of `0.15` BNB per token base unit (`pnlPercent = 50`). -/
theorem sample_profit_exit :
    checkExitConditions defaultTransitionConfig 0
      (updatePositionStatus (15 * 10 ^ 16) samplePosition) = some .profitTarget := by
  have hp : (updatePositionStatus (15 * 10 ^ 16) samplePosition).profitLossPercent =
      some 50 := by
    have := samplePosition_pnl 15
    norm_num at this ⊢
    exact this
  have hfields := checkExitConditions_eq_of_fields defaultTransitionConfig 0
    (updatePositionStatus (15 * 10 ^ 16) samplePosition)
    { samplePosition with profitLossPercent := some 50 } rfl (by rw [hp]) rfl rfl
  rw [hfields]
  rfl

/-- C5 amended: there is no FAILED state and no retry bound.  When the exit
swap fails, the position merely has its status set to STOPPED and stays in
the active map with the completed map untouched; the monitoring loop
evaluates it again on the next tick, and a later tick whose sell succeeds
closes it — the position is never excluded from automatic exit attempts. -/
theorem sell_failure_stopped_and_retried (cfg : TransitionConfig) (now : ℤ)
    (price : String → ℚ) (sellFailO sellOkO : String → Option ℤ) (k : String)
    (p : TradePosition) (comp : List (String × TradePosition)) (n : ℕ)
    (reason : ExitReason) (gas : ℤ)
    (hid : p.id = k) (hfail : sellFailO k = none) (hok : sellOkO k = some gas)
    (hexit : checkExitConditions cfg now
        (updatePositionStatus (price p.tokenAddress) p) = some reason) :
    monitorPositions cfg now price sellFailO ⟨[(k, p)], comp, n⟩ =
      ⟨[(k, { updatePositionStatus (price p.tokenAddress) p with
          status := .STOPPED })], comp, n⟩
    ∧ (monitorPositions cfg now price sellOkO
        ⟨[(k, { updatePositionStatus (price p.tokenAddress) p with
            status := .STOPPED })], comp, n⟩).activePositions = [] := by
  refine ⟨monitorPositions_singleton_fail cfg now price sellFailO k p comp n
    reason hid hfail hexit, ?_⟩
  have hexit' : checkExitConditions cfg now
      (updatePositionStatus
        (price ({ updatePositionStatus (price p.tokenAddress) p with
          status := PositionStatus.STOPPED } : TradePosition).tokenAddress)
        { updatePositionStatus (price p.tokenAddress) p with
          status := PositionStatus.STOPPED }) = some reason := by
    have heq := checkExitConditions_eq_of_fields cfg now
      (updatePositionStatus
        (price ({ updatePositionStatus (price p.tokenAddress) p with
          status := PositionStatus.STOPPED } : TradePosition).tokenAddress)
        { updatePositionStatus (price p.tokenAddress) p with
          status := PositionStatus.STOPPED })
      (updatePositionStatus (price p.tokenAddress) p) rfl rfl rfl rfl
    rw [heq]
    exact hexit
  have hsucc := monitorPositions_singleton_success cfg now price sellOkO k
    { updatePositionStatus (price p.tokenAddress) p with status := .STOPPED }
    comp n reason gas hid hok hexit'
  rw [hsucc]

/-- Witness for the amended C5: `samplePosition` at `pnlPercent = 50`; a
failing tick leaves it active and STOPPED, a succeeding tick then empties
the active book. -/
theorem sell_failure_stopped_and_retried_witness :
    monitorPositions defaultTransitionConfig 0 (fun _ => 15 * 10 ^ 16)
        (fun _ => none) sampleState = ⟨[("p1", stopped50)], [], 0⟩
    ∧ (monitorPositions defaultTransitionConfig 0 (fun _ => 15 * 10 ^ 16)
        (fun _ => some 0) ⟨[("p1", stopped50)], [], 0⟩).activePositions = [] :=
  sell_failure_stopped_and_retried defaultTransitionConfig 0
    (fun _ => 15 * 10 ^ 16) (fun _ => none) (fun _ => some 0) "p1"
    samplePosition [] 0 .profitTarget 0 rfl rfl rfl sample_profit_exit

/-- C5 counterexample: three consecutive failing sells (e.g. `Timeout`)
leave the position ACTIVE-listed with status STOPPED — there is no FAILED
status — with nothing completed, and the very next tick still re-attempts
the exit (a succeeding fourth sell empties the active book): the position is
never transitioned to a terminal excluded state. -/
theorem sell_failure_unbounded_retry_counterexample :
    (monitorPositions defaultTransitionConfig 0 (fun _ => 15 * 10 ^ 16) (fun _ => none)
        (monitorPositions defaultTransitionConfig 0 (fun _ => 15 * 10 ^ 16) (fun _ => none)
          (monitorPositions defaultTransitionConfig 0 (fun _ => 15 * 10 ^ 16) (fun _ => none)
            sampleState))).activePositions.map (fun kp => (kp.1, kp.2.status)) =
      [("p1", PositionStatus.STOPPED)]
    ∧ (monitorPositions defaultTransitionConfig 0 (fun _ => 15 * 10 ^ 16) (fun _ => none)
        (monitorPositions defaultTransitionConfig 0 (fun _ => 15 * 10 ^ 16) (fun _ => none)
          (monitorPositions defaultTransitionConfig 0 (fun _ => 15 * 10 ^ 16) (fun _ => none)
            sampleState))).completedPositions = []
    ∧ (monitorPositions defaultTransitionConfig 0 (fun _ => 15 * 10 ^ 16) (fun _ => some 0)
        (monitorPositions defaultTransitionConfig 0 (fun _ => 15 * 10 ^ 16) (fun _ => none)
          (monitorPositions defaultTransitionConfig 0 (fun _ => 15 * 10 ^ 16) (fun _ => none)
            (monitorPositions defaultTransitionConfig 0 (fun _ => 15 * 10 ^ 16) (fun _ => none)
              sampleState)))).activePositions = [] := by
  have hexS : checkExitConditions defaultTransitionConfig 0
      (updatePositionStatus ((fun _ => (15 * 10 ^ 16 : ℚ)) stopped50.tokenAddress)
        stopped50) = some .profitTarget := by
    have heq := checkExitConditions_eq_of_fields defaultTransitionConfig 0
      (updatePositionStatus ((fun _ => (15 * 10 ^ 16 : ℚ)) stopped50.tokenAddress)
        stopped50)
      (updatePositionStatus (15 * 10 ^ 16) samplePosition) rfl rfl rfl rfl
    rw [heq]
    exact sample_profit_exit
  have e1 : monitorPositions defaultTransitionConfig 0 (fun _ => 15 * 10 ^ 16)
      (fun _ => none) sampleState = ⟨[("p1", stopped50)], [], 0⟩ :=
    monitorPositions_singleton_fail defaultTransitionConfig 0
      (fun _ => 15 * 10 ^ 16) (fun _ => none) "p1" samplePosition [] 0
      .profitTarget rfl rfl sample_profit_exit
  have e2 : monitorPositions defaultTransitionConfig 0 (fun _ => 15 * 10 ^ 16)
      (fun _ => none) ⟨[("p1", stopped50)], [], 0⟩ = ⟨[("p1", stopped50)], [], 0⟩ :=
    monitorPositions_singleton_fail defaultTransitionConfig 0
      (fun _ => 15 * 10 ^ 16) (fun _ => none) "p1" stopped50 [] 0
      .profitTarget rfl rfl hexS
  have e4 : (monitorPositions defaultTransitionConfig 0 (fun _ => 15 * 10 ^ 16)
      (fun _ => some 0) ⟨[("p1", stopped50)], [], 0⟩).activePositions = [] := by
    rw [monitorPositions_singleton_success defaultTransitionConfig 0
      (fun _ => 15 * 10 ^ 16) (fun _ => some 0) "p1" stopped50 [] 0
      .profitTarget 0 rfl rfl hexS]
  rw [e1, e2, e2, e4]
  exact ⟨rfl, rfl, rfl⟩

theorem monitorStep_partialSells_none (cfg : TransitionConfig) (now : ℤ)
    (price : String → ℚ) (sellO : String → Option ℤ) (s : TransitionState)
    (pid : String)
    (ha : ∀ kp ∈ s.activePositions, kp.2.partialSells = none)
    (hc : ∀ kp ∈ s.completedPositions, kp.2.partialSells = none) :
    (∀ kp ∈ (monitorStep cfg now price sellO s pid).activePositions,
        kp.2.partialSells = none)
    ∧ (∀ kp ∈ (monitorStep cfg now price sellO s pid).completedPositions,
        kp.2.partialSells = none) := by
  rcases hlk : lookupKey s.activePositions pid with _ | p
  · simp only [monitorStep, hlk]
    exact ⟨ha, hc⟩
  · have hupd : (updatePositionStatus (price p.tokenAddress) p).partialSells = none :=
      ha (pid, p) (lookupKey_mem _ _ _ hlk)
    rcases hex : checkExitConditions cfg now
        (updatePositionStatus (price p.tokenAddress) p) with _ | reason
    · simp only [monitorStep, hlk, hex]
      refine ⟨fun kp hkp => ?_, hc⟩
      rcases mem_setKey _ _ _ _ hkp with h | h
      · rw [h]
        exact hupd
      · exact ha kp h
    · rcases hsell : sellO pid with _ | gas
      · simp only [monitorStep, hlk, hex, executeExitStrategy, hsell]
        refine ⟨fun kp hkp => ?_, hc⟩
        rcases mem_setKey _ _ _ _ hkp with h | h
        · rw [h]
          exact hupd
        · rcases mem_setKey _ _ _ _ h with h' | h'
          · rw [h']
            exact hupd
          · exact ha kp h'
      · simp only [monitorStep, hlk, hex, executeExitStrategy, hsell]
        constructor
        · intro kp hkp
          rcases mem_setKey _ _ _ _ (mem_removeKey _ _ _ hkp) with h | h
          · rw [h]
            exact hupd
          · exact ha kp h
        · intro kp hkp
          rcases List.mem_append.mp hkp with h | h
          · exact hc kp h
          · have hkp2 := congrArg Prod.snd (List.mem_singleton.mp h)
            rw [show kp.2 = _ from hkp2]
            exact hupd

theorem monitorPositions_partialSells_none (cfg : TransitionConfig) (now : ℤ)
    (price : String → ℚ) (sellO : String → Option ℤ) (s : TransitionState)
    (ha : ∀ kp ∈ s.activePositions, kp.2.partialSells = none)
    (hc : ∀ kp ∈ s.completedPositions, kp.2.partialSells = none) :
    (∀ kp ∈ (monitorPositions cfg now price sellO s).activePositions,
        kp.2.partialSells = none)
    ∧ (∀ kp ∈ (monitorPositions cfg now price sellO s).completedPositions,
        kp.2.partialSells = none) := by
  have key : ∀ (pids : List String) (s : TransitionState),
      (∀ kp ∈ s.activePositions, kp.2.partialSells = none) →
      (∀ kp ∈ s.completedPositions, kp.2.partialSells = none) →
      (∀ kp ∈ (pids.foldl (monitorStep cfg now price sellO) s).activePositions,
          kp.2.partialSells = none)
      ∧ (∀ kp ∈ (pids.foldl (monitorStep cfg now price sellO) s).completedPositions,
          kp.2.partialSells = none) := by
    intro pids
    induction pids with
    | nil => exact fun s ha hc => ⟨ha, hc⟩
    | cons pid pids ih =>
      intro s ha hc
      have h := monitorStep_partialSells_none cfg now price sellO s pid ha hc
      exact ih _ h.1 h.2
  exact key _ s ha hc

/-- The first ladder rung (25) fires for `samplePosition` refreshed at a
quoted price of `0.13` BNB per token base unit (`pnlPercent = 30`). -/
theorem sample_ladder_exit :
    checkExitConditions defaultTransitionConfig 0
      (updatePositionStatus (13 * 10 ^ 16) samplePosition) =
        some (.ladderSell 25) := by
  have hp : (updatePositionStatus (13 * 10 ^ 16) samplePosition).profitLossPercent =
      some 30 := by
    have := samplePosition_pnl 13
    norm_num at this ⊢
    exact this
  have hfields := checkExitConditions_eq_of_fields defaultTransitionConfig 0
    (updatePositionStatus (13 * 10 ^ 16) samplePosition)
    { samplePosition with profitLossPercent := some 30 } rfl (by rw [hp]) rfl rfl
  rw [hfields]
  rfl

/-- The same rung (25) still fires for the STOPPED position on the next
tick: nothing was recorded to prevent it. -/
theorem sample_ladder_exit_stopped :
    checkExitConditions defaultTransitionConfig 0
      (updatePositionStatus ((fun _ => (13 * 10 ^ 16 : ℚ)) stopped30.tokenAddress)
        stopped30) = some (.ladderSell 25) := by
  have heq := checkExitConditions_eq_of_fields defaultTransitionConfig 0
    (updatePositionStatus ((fun _ => (13 * 10 ^ 16 : ℚ)) stopped30.tokenAddress)
      stopped30)
    (updatePositionStatus (13 * 10 ^ 16) samplePosition) rfl rfl rfl rfl
  rw [heq]
  exact sample_ladder_exit

/-- C7 counterexample: at `pnlPercent = 30` the 25-rung triggers a (full)
exit; after the sell fails nothing is recorded in any fired-rung set
(`partialSells` is still `none`), and on the next tick the same 25-rung
triggers the exit again — the successfully closed position carries
`exitReason = ladderSell 25` from its second trigger. -/
theorem ladder_rung_retrigger_counterexample :
    checkExitConditions defaultTransitionConfig 0
        (updatePositionStatus (13 * 10 ^ 16) samplePosition) = some (.ladderSell 25)
    ∧ (monitorPositions defaultTransitionConfig 0 (fun _ => 13 * 10 ^ 16)
          (fun _ => none) sampleState).activePositions.map
        (fun kp => kp.2.partialSells) = [none]
    ∧ (monitorPositions defaultTransitionConfig 0 (fun _ => 13 * 10 ^ 16)
          (fun _ => some 0)
          (monitorPositions defaultTransitionConfig 0 (fun _ => 13 * 10 ^ 16)
            (fun _ => none) sampleState)).completedPositions.map
        (fun kp => kp.2.exitReason) = [some (.ladderSell 25)] := by
  have e1 : monitorPositions defaultTransitionConfig 0 (fun _ => 13 * 10 ^ 16)
      (fun _ => none) sampleState = ⟨[("p1", stopped30)], [], 0⟩ :=
    monitorPositions_singleton_fail defaultTransitionConfig 0
      (fun _ => 13 * 10 ^ 16) (fun _ => none) "p1" samplePosition [] 0
      (.ladderSell 25) rfl rfl sample_ladder_exit
  have e2 : (monitorPositions defaultTransitionConfig 0 (fun _ => 13 * 10 ^ 16)
      (fun _ => some 0) ⟨[("p1", stopped30)], [], 0⟩).completedPositions.map
        (fun kp => kp.2.exitReason) = [some (.ladderSell 25)] := by
    rw [monitorPositions_singleton_success defaultTransitionConfig 0
      (fun _ => 13 * 10 ^ 16) (fun _ => some 0) "p1" stopped30 [] 0
      (.ladderSell 25) 0 rfl rfl sample_ladder_exit_stopped]
    rfl
  rw [e1]
  exact ⟨sample_ladder_exit, rfl, e2⟩

/-- C7 amended: there is no fired-rung bookkeeping.  The `partialSells`
field read by the rung check is never assigned by any code path (it stays
`none` across every monitoring tick for every position), so a rung never
re-triggers only when the position leaves the active book: a ladder-rung
exit whose sell succeeds closes the whole position, while after a failed
sell the very same rung fires the exit again on the next tick. -/
theorem partialSells_unrecorded_rung_retriggers :
    (∀ (cfg : TransitionConfig) (now : ℤ) (price : String → ℚ)
        (sellO : String → Option ℤ) (s : TransitionState),
        (∀ kp ∈ s.activePositions, kp.2.partialSells = none) →
        (∀ kp ∈ s.completedPositions, kp.2.partialSells = none) →
        (∀ kp ∈ (monitorPositions cfg now price sellO s).activePositions,
            kp.2.partialSells = none)
        ∧ (∀ kp ∈ (monitorPositions cfg now price sellO s).completedPositions,
            kp.2.partialSells = none))
    ∧ (∀ (cfg : TransitionConfig) (now : ℤ) (price : String → ℚ)
        (sellO : String → Option ℤ) (k : String) (p : TradePosition)
        (comp : List (String × TradePosition)) (n : ℕ) (r : ℚ),
        p.id = k → sellO k = none →
        checkExitConditions cfg now
            (updatePositionStatus (price p.tokenAddress) p) = some (.ladderSell r) →
        monitorPositions cfg now price sellO ⟨[(k, p)], comp, n⟩ =
          ⟨[(k, { updatePositionStatus (price p.tokenAddress) p with
              status := .STOPPED })], comp, n⟩
        ∧ checkExitConditions cfg now
            (updatePositionStatus
              (price ({ updatePositionStatus (price p.tokenAddress) p with
                status := PositionStatus.STOPPED } : TradePosition).tokenAddress)
              { updatePositionStatus (price p.tokenAddress) p with
                status := PositionStatus.STOPPED }) = some (.ladderSell r)) := by
  constructor
  · exact fun cfg now price sellO s ha hc =>
      monitorPositions_partialSells_none cfg now price sellO s ha hc
  · intro cfg now price sellO k p comp n r hid hfail hexit
    refine ⟨monitorPositions_singleton_fail cfg now price sellO k p comp n
      (.ladderSell r) hid hfail hexit, ?_⟩
    have heq := checkExitConditions_eq_of_fields cfg now
      (updatePositionStatus
        (price ({ updatePositionStatus (price p.tokenAddress) p with
          status := PositionStatus.STOPPED } : TradePosition).tokenAddress)
        { updatePositionStatus (price p.tokenAddress) p with
          status := PositionStatus.STOPPED })
      (updatePositionStatus (price p.tokenAddress) p) rfl rfl rfl rfl
    rw [heq]
    exact hexit

/-- Witness for the amended C7: the ladder scenario at `pnlPercent = 30` —
after the failed tick the position's `partialSells` is still `none` and the
25-rung exit cause holds again. -/
theorem partialSells_unrecorded_rung_retriggers_witness :
    monitorPositions defaultTransitionConfig 0 (fun _ => 13 * 10 ^ 16)
        (fun _ => none) sampleState = ⟨[("p1", stopped30)], [], 0⟩
    ∧ checkExitConditions defaultTransitionConfig 0
        (updatePositionStatus (13 * 10 ^ 16) stopped30) = some (.ladderSell 25)
    ∧ stopped30.partialSells = none := by
  have h := partialSells_unrecorded_rung_retriggers.2 defaultTransitionConfig 0
    (fun _ => 13 * 10 ^ 16) (fun _ => none) "p1" samplePosition [] 0 25
    rfl rfl sample_ladder_exit
  have hpres := partialSells_unrecorded_rung_retriggers.1 defaultTransitionConfig 0
    (fun _ => 13 * 10 ^ 16) (fun _ => none) sampleState
    (by intro kp hkp
        simp only [sampleState, List.mem_singleton] at hkp
        rw [hkp]
        rfl)
    (by intro kp hkp
        simp only [sampleState] at hkp
        simp at hkp)
  refine ⟨h.1, h.2, ?_⟩
  have hmem : ("p1", stopped30) ∈ (monitorPositions defaultTransitionConfig 0
      (fun _ => 13 * 10 ^ 16) (fun _ => none)
      (⟨[("p1", samplePosition)], [], 0⟩ : TransitionState)).activePositions := by
    rw [h.1]
    exact List.mem_singleton.mpr rfl
  exact hpres.1 ("p1", stopped30) hmem

end FourMemeSniper
